import Mathlib

/-!
Verification of the ArgusAI multi-camera event-correlation engine.

The correlation engine (`app/services/correlation_service.py`) is specified in
`spec.md` and exercised by `tests/test_services/test_correlation_service.py`.
The module itself is not part of the provided sources, so the definitions below
are modelled from the specification (each doc comment says so explicitly) and
checked against the behaviour pinned down by the test suite.

Modelling conventions:
- timestamps are rationals (`ℚ`), measured in seconds, standing for the
  timezone-aware datetimes of the source;
- the in-memory buffer is an insertion-ordered list of
  `(insertion time, BufferedEvent)` pairs;
- the mutable service state is passed explicitly; the wall clock is an explicit
  `now` argument; the UUID source is an explicit 128-bit `fresh` argument;
- the external persistence write is a function returning `Except`, and the
  Python `try/except` of `process_event` becomes explicit branching: a failing
  sub-step yields the result `none` instead of propagating, while mutations
  already performed (the buffer insert) are retained, matching the in-place
  mutation semantics of the source;
- a corrupted/malformed buffer (the test sets `service._buffer = None`) is
  modelled by the state being `Option`-valued, with `none` as the corrupt state.
-/

/-- Modelled from the spec: `BufferedEvent`, §3 — an immutable projection of a
persisted event, created at buffer-insertion time.  Field names follow the test
suite (`smart_detection_type`, `protect_controller_id`). -/
structure BufferedEvent where
  id : String
  camera_id : String
  timestamp : ℚ
  smart_detection_type : Option String
  correlation_group_id : Option String
  protect_controller_id : Option String
deriving DecidableEq

/-- Modelled from the spec: the event-model interface of §6 — any record
exposing `id`, `camera_id`, `timestamp`, `detection_type` and
`correlation_group_id`; the tests build such records with `MagicMock`. -/
structure EventRecord where
  id : String
  camera_id : String
  timestamp : ℚ
  smart_detection_type : Option String
  correlation_group_id : Option String
deriving DecidableEq

/-- Modelled from the spec: `CorrelationBuffer`, §3 — an insertion-ordered
sequence of `(timestamp, BufferedEvent)` pairs. -/
abbrev CorrelationBuffer := List (ℚ × BufferedEvent)

/-- Modelled from the spec: the constructor configuration of
`CorrelationService`, §4.4 — `time_window_seconds` (default 10) and
`buffer_max_age_seconds` (default 60). -/
structure CorrelationService where
  time_window_seconds : ℚ := 10
  buffer_max_age_seconds : ℚ := 60
deriving DecidableEq

/-- Modelled from the spec: default correlation window, §4.4 (10 seconds). -/
def DEFAULT_TIME_WINDOW_SECONDS : ℚ := 10

/-- Modelled from the spec: default buffer retention, §4.4 (60 seconds). -/
def DEFAULT_BUFFER_MAX_AGE_SECONDS : ℚ := 60

/-- Modelled from the spec: the projection step of `add_to_buffer`, §4.1 —
a `BufferedEvent` is constructed from the input event's fields.  The tests set
`event.camera = None`, so the controller id of the projection is `none`. -/
def toBufferedEvent (e : EventRecord) : BufferedEvent :=
  { id := e.id
  , camera_id := e.camera_id
  , timestamp := e.timestamp
  , smart_detection_type := e.smart_detection_type
  , correlation_group_id := e.correlation_group_id
  , protect_controller_id := none }

/-- Modelled from the spec: `add_to_buffer`, §4.1 — append `(now, buffered)`
to the buffer, then evict every entry whose stored timestamp is older than
`now - buffer_max_age_seconds`.  The constructed `BufferedEvent` returned by
the source is `toBufferedEvent e`. -/
def add_to_buffer (svc : CorrelationService) (now : ℚ) (e : EventRecord)
    (buf : CorrelationBuffer) : CorrelationBuffer :=
  (buf ++ [(now, toBufferedEvent e)]).filter
    (fun p => decide (now - p.1 ≤ svc.buffer_max_age_seconds))

/-- Modelled from the spec: the detection-type clause of §4.2 — both labels
must be non-null and exactly (case-sensitively) equal. -/
def typeMatch : Option String → Option String → Bool
  | some a, some b => a == b
  | _, _ => false

/-- Modelled from the spec: `find_correlation_candidates`, §4.2 — linear scan
of the buffer returning, in insertion order, every entry on a different camera
with the same non-null detection type whose own `timestamp` field lies within
`time_window_seconds` of the new event's `timestamp`. -/
def find_correlation_candidates (svc : CorrelationService) (e : BufferedEvent)
    (buf : CorrelationBuffer) : List BufferedEvent :=
  (buf.filter (fun p =>
    decide (p.2.camera_id ≠ e.camera_id)
      && typeMatch p.2.smart_detection_type e.smart_detection_type
      && decide (|e.timestamp - p.2.timestamp| ≤ svc.time_window_seconds))).map
    (fun p => p.2)

/-- Modelled from the spec: the "ordered unique list" of §4.3 — duplicates are
dropped keeping the first occurrence. -/
def dedupKeepFirst : List String → List String
  | [] => []
  | x :: xs => x :: (dedupKeepFirst xs).filter (fun y => y ≠ x)

/-- Modelled from the spec: a nibble rendered as a lowercase hex character. -/
def hexChar (n : Nat) : Char :=
  if n < 10 then Char.ofNat (48 + n) else Char.ofNat (87 + n)

/-- Modelled from the spec: `w` lowercase hex characters rendering
`n % 16 ^ w`, most significant nibble first. -/
def hexDigits : Nat → Nat → List Char
  | _, 0 => []
  | n, w + 1 => hexDigits (n / 16) w ++ [hexChar (n % 16)]

/-- Modelled from the spec: §4.3 step 3 — minting a new group id as the
canonical hyphenated textual form (8-4-4-4-12 lowercase hex) of a 128-bit
UUID value drawn from the fresh source. -/
def mintUUID (n : Nat) : String :=
  String.mk
    (hexDigits (n / 16 ^ 24 % 16 ^ 8) 8 ++
      ('-' :: (hexDigits (n / 16 ^ 20 % 16 ^ 4) 4 ++
        ('-' :: (hexDigits (n / 16 ^ 16 % 16 ^ 4) 4 ++
          ('-' :: (hexDigits (n / 16 ^ 12 % 16 ^ 4) 4 ++
            ('-' :: hexDigits (n % 16 ^ 12) 12))))))))

/-- Modelled from the spec: recognizer for a lowercase hexadecimal digit. -/
def isHexChar (c : Char) : Bool :=
  (decide ('0' ≤ c) && decide (c ≤ '9')) || (decide ('a' ≤ c) && decide (c ≤ 'f'))

/-- Modelled from the spec: numeric value of a lowercase hex character. -/
def hexNat (c : Char) : Nat :=
  if c ≤ '9' then c.toNat - 48 else c.toNat - 87

/-- Modelled from the spec: big-endian decoding of a hex character list. -/
def decodeHex (l : List Char) : Nat :=
  l.foldl (fun a c => 16 * a + hexNat c) 0

/-- Modelled from the spec: `determine_correlation_group`, §4.3 — reuse the
first non-null `correlation_group_id` encountered in candidate order, else mint
a new UUID; the membership list is the new event's id followed by every
candidate's id, duplicates dropped. -/
def determine_correlation_group (fresh : Nat) (e : BufferedEvent)
    (candidates : List BufferedEvent) : String × List String :=
  let gid :=
    match candidates.findSome? (fun c => c.correlation_group_id) with
    | some g => g
    | none => mintUUID fresh
  (gid, dedupKeepFirst (e.id :: candidates.map (fun c => c.id)))

/-- Modelled from the spec: the in-place group-id annotation of a buffered
entry. -/
def setGroup (be : BufferedEvent) (gid : String) : BufferedEvent :=
  { be with correlation_group_id := some gid }

/-- Modelled from the spec: `update_buffer_with_correlation`, §4.1/§4.4 — set
`correlation_group_id` on the buffer entry carrying this event id (a no-op if
the entry has expired from the buffer). -/
def update_buffer_with_correlation (event_id : String) (gid : String)
    (buf : CorrelationBuffer) : CorrelationBuffer :=
  buf.map (fun p => if p.2.id = event_id then (p.1, setGroup p.2 gid) else p)

/-- Modelled from the spec: §4.4 — after the persistence write, every group
member's buffer entry is annotated with the resolved id. -/
def annotateBuffer (ids : List String) (gid : String)
    (buf : CorrelationBuffer) : CorrelationBuffer :=
  ids.foldl (fun b i => update_buffer_with_correlation i gid b) buf

/-- Modelled from the spec: `process_event`, §4.4/§7 — add to buffer, find
candidates, and if any exist resolve the group, write it through the external
persistence collaborator and annotate the buffer.  Returns the resolved group
id, or `none` when no candidates were found.  The Python `try/except` boundary
becomes explicit branching: a corrupted state (`none`) or a failing persistence
write yields `none` instead of an exception, retaining the mutations already
performed. -/
def process_event (svc : CorrelationService)
    (db : String → List String → Except String Nat) (fresh : Nat) (now : ℚ)
    (e : EventRecord) (st : Option CorrelationBuffer) :
    Option CorrelationBuffer × Option String :=
  match st with
  | none => (none, none)
  | some buf =>
    let buffered := toBufferedEvent e
    let buf1 := add_to_buffer svc now e buf
    let cands := find_correlation_candidates svc buffered buf1
    if cands.isEmpty then (some buf1, none)
    else
      let r := determine_correlation_group fresh buffered cands
      match db r.1 r.2 with
      | Except.error _ => (some buf1, none)
      | Except.ok _ => (some (annotateBuffer r.2 r.1 buf1), some r.1)

/-- Modelled from the spec: a sequence of buffer insertions, §4.1 — each step
supplies the wall-clock instant of that insertion. -/
def insertMany (svc : CorrelationService) (steps : List (ℚ × EventRecord))
    (buf : CorrelationBuffer) : CorrelationBuffer :=
  steps.foldl (fun b s => add_to_buffer svc s.1 s.2 b) buf

theorem typeMatch_iff (a b : Option String) :
    typeMatch a b = true ↔ ∃ d, a = some d ∧ b = some d := by
  cases a with
  | none => simp [typeMatch]
  | some x =>
    cases b with
    | none => simp [typeMatch]
    | some y =>
      simp only [typeMatch, beq_iff_eq, Option.some.injEq]
      constructor
      · rintro rfl
        exact ⟨x, rfl, rfl⟩
      · rintro ⟨d, rfl, rfl⟩
        rfl

theorem mem_find_iff (svc : CorrelationService) (e : BufferedEvent)
    (buf : CorrelationBuffer) (c : BufferedEvent) :
    c ∈ find_correlation_candidates svc e buf ↔
      (∃ t, (t, c) ∈ buf) ∧ c.camera_id ≠ e.camera_id ∧
        (∃ d, c.smart_detection_type = some d ∧ e.smart_detection_type = some d) ∧
        |e.timestamp - c.timestamp| ≤ svc.time_window_seconds := by
  unfold find_correlation_candidates
  simp only [List.mem_map, List.mem_filter, Bool.and_eq_true, decide_eq_true_eq]
  constructor
  · rintro ⟨⟨t, cc⟩, ⟨hmem, ⟨hcam, hty⟩, hw⟩, rfl⟩
    exact ⟨⟨t, hmem⟩, hcam, (typeMatch_iff _ _).1 hty, hw⟩
  · rintro ⟨⟨t, hmem⟩, hcam, hty, hw⟩
    exact ⟨(t, c), ⟨hmem, ⟨hcam, (typeMatch_iff _ _).2 hty⟩, hw⟩, rfl⟩

theorem mem_add_to_buffer (svc : CorrelationService) (now : ℚ) (e : EventRecord)
    (buf : CorrelationBuffer) (p : ℚ × BufferedEvent) :
    p ∈ add_to_buffer svc now e buf ↔
      (p ∈ buf ∨ p = (now, toBufferedEvent e)) ∧
        now - p.1 ≤ svc.buffer_max_age_seconds := by
  unfold add_to_buffer
  simp [List.mem_filter, List.mem_append, decide_eq_true_eq]
  tauto

theorem mem_dedupKeepFirst (a : String) (l : List String) :
    a ∈ dedupKeepFirst l ↔ a ∈ l := by
  induction l with
  | nil => simp [dedupKeepFirst]
  | cons x xs ih =>
    simp only [dedupKeepFirst, List.mem_cons, List.mem_filter, ih,
      decide_eq_true_eq]
    by_cases h : a = x <;> simp [h]

theorem nodup_dedupKeepFirst (l : List String) : (dedupKeepFirst l).Nodup := by
  induction l with
  | nil => simp [dedupKeepFirst]
  | cons x xs ih =>
    rw [dedupKeepFirst, List.nodup_cons]
    constructor
    · intro hmem
      have := (List.mem_filter.1 hmem).2
      simp at this
    · exact ih.filter _

theorem dedupKeepFirst_perm_dedup (l : List String) :
    (dedupKeepFirst l).Perm l.dedup := by
  apply List.perm_of_nodup_nodup_toFinset_eq (nodup_dedupKeepFirst l)
    (List.nodup_dedup l)
  ext a
  simp [List.mem_toFinset, mem_dedupKeepFirst, List.mem_dedup]

theorem filter_dedupKeepFirst_perm (x : String) (xs : List String) :
    ((dedupKeepFirst xs).filter (fun y => y ≠ x)).Perm
      ((xs.filter (fun y => y ≠ x)).dedup) := by
  apply List.perm_of_nodup_nodup_toFinset_eq
    ((nodup_dedupKeepFirst xs).filter _) (List.nodup_dedup _)
  ext a
  simp [List.mem_toFinset, List.mem_filter, mem_dedupKeepFirst, List.mem_dedup]

theorem hexDigits_length (w : Nat) : ∀ n, (hexDigits n w).length = w := by
  induction w with
  | zero => intro n; rfl
  | succ w ih => intro n; simp [hexDigits, ih]

theorem hexChar_isHex : ∀ d, d < 16 → isHexChar (hexChar d) = true := by decide

theorem hexNat_hexChar : ∀ d, d < 16 → hexNat (hexChar d) = d := by decide

theorem mem_hexDigits_isHex (w : Nat) :
    ∀ n c, c ∈ hexDigits n w → isHexChar c = true := by
  induction w with
  | zero => intro n c h; simp [hexDigits] at h
  | succ w ih =>
    intro n c h
    rw [show hexDigits n (w + 1) = hexDigits (n / 16) w ++ [hexChar (n % 16)]
      from rfl] at h
    rcases List.mem_append.1 h with h | h
    · exact ih _ _ h
    · rw [List.mem_singleton.1 h]
      exact hexChar_isHex _ (Nat.mod_lt _ (by norm_num))

theorem decode_aux (w : Nat) :
    ∀ n acc, List.foldl (fun a c => 16 * a + hexNat c) acc (hexDigits n w)
      = acc * 16 ^ w + n % 16 ^ w := by
  induction w with
  | zero => intro n acc; simp [hexDigits, Nat.mod_one]
  | succ w ih =>
    intro n acc
    rw [show hexDigits n (w + 1) = hexDigits (n / 16) w ++ [hexChar (n % 16)]
      from rfl]
    rw [List.foldl_append, ih]
    simp only [List.foldl_cons, List.foldl_nil]
    rw [hexNat_hexChar _ (Nat.mod_lt _ (by norm_num))]
    have h2 : n % 16 ^ (w + 1) = n % 16 + 16 * (n / 16 % 16 ^ w) := by
      rw [show (16:ℕ) ^ (w + 1) = 16 * 16 ^ w by ring]
      exact Nat.mod_mul
    rw [h2, pow_succ]
    ring

theorem decodeHex_hexDigits (w n : Nat) : decodeHex (hexDigits n w) = n % 16 ^ w := by
  unfold decodeHex
  rw [decode_aux]
  simp

theorem annotateBuffer_eq_map (ids : List String) (gid : String)
    (buf : CorrelationBuffer) :
    annotateBuffer ids gid buf
      = buf.map (fun p => if p.2.id ∈ ids then (p.1, setGroup p.2 gid) else p) := by
  induction ids generalizing buf with
  | nil => simp [annotateBuffer]
  | cons i is ih =>
    rw [show annotateBuffer (i :: is) gid buf
      = annotateBuffer is gid (update_buffer_with_correlation i gid buf) from rfl]
    rw [ih]
    unfold update_buffer_with_correlation
    rw [List.map_map]
    congr 1
    funext p
    by_cases h1 : p.2.id = i
    · by_cases h2 : p.2.id ∈ is <;>
        simp [Function.comp, h1, h2, setGroup, List.mem_cons]
    · by_cases h2 : p.2.id ∈ is <;>
        simp [Function.comp, h1, h2, List.mem_cons]

theorem mintUUID_inj (n m : Nat) (hn : n < 16 ^ 32) (hm : m < 16 ^ 32)
    (h : mintUUID n = mintUUID m) : n = m := by
  unfold mintUUID at h
  injection h with hdata
  obtain ⟨h1, hrest⟩ := List.append_inj hdata
    (by rw [hexDigits_length, hexDigits_length])
  injection hrest with hdash hrest
  obtain ⟨h2, hrest⟩ := List.append_inj hrest
    (by rw [hexDigits_length, hexDigits_length])
  injection hrest with hdash2 hrest
  obtain ⟨h3, hrest⟩ := List.append_inj hrest
    (by rw [hexDigits_length, hexDigits_length])
  injection hrest with hdash3 hrest
  obtain ⟨h4, h5⟩ := List.append_inj hrest
    (by rw [hexDigits_length, hexDigits_length])
  injection h5 with hdash4 h5
  have g1 := congrArg decodeHex h1
  rw [decodeHex_hexDigits, decodeHex_hexDigits,
    Nat.mod_eq_of_lt (Nat.mod_lt _ (by norm_num)),
    Nat.mod_eq_of_lt (Nat.mod_lt _ (by norm_num))] at g1
  have g2 := congrArg decodeHex h2
  rw [decodeHex_hexDigits, decodeHex_hexDigits,
    Nat.mod_eq_of_lt (Nat.mod_lt _ (by norm_num)),
    Nat.mod_eq_of_lt (Nat.mod_lt _ (by norm_num))] at g2
  have g3 := congrArg decodeHex h3
  rw [decodeHex_hexDigits, decodeHex_hexDigits,
    Nat.mod_eq_of_lt (Nat.mod_lt _ (by norm_num)),
    Nat.mod_eq_of_lt (Nat.mod_lt _ (by norm_num))] at g3
  have g4 := congrArg decodeHex h4
  rw [decodeHex_hexDigits, decodeHex_hexDigits,
    Nat.mod_eq_of_lt (Nat.mod_lt _ (by norm_num)),
    Nat.mod_eq_of_lt (Nat.mod_lt _ (by norm_num))] at g4
  have g5 := congrArg decodeHex h5
  rw [decodeHex_hexDigits, decodeHex_hexDigits,
    Nat.mod_eq_of_lt (Nat.mod_lt _ (by norm_num)),
    Nat.mod_eq_of_lt (Nat.mod_lt _ (by norm_num))] at g5
  have hrecon : ∀ k : Nat, k < 16 ^ 32 →
      k = k % 16 ^ 12 + 16 ^ 12 * (k / 16 ^ 12 % 16 ^ 4)
        + 16 ^ 16 * (k / 16 ^ 16 % 16 ^ 4) + 16 ^ 20 * (k / 16 ^ 20 % 16 ^ 4)
        + 16 ^ 24 * (k / 16 ^ 24 % 16 ^ 8) := by
    intro k hk
    have e32 : k % (16 ^ 24 * 16 ^ 8)
        = k % 16 ^ 24 + 16 ^ 24 * (k / 16 ^ 24 % 16 ^ 8) := Nat.mod_mul
    have e24 : k % (16 ^ 20 * 16 ^ 4)
        = k % 16 ^ 20 + 16 ^ 20 * (k / 16 ^ 20 % 16 ^ 4) := Nat.mod_mul
    have e20 : k % (16 ^ 16 * 16 ^ 4)
        = k % 16 ^ 16 + 16 ^ 16 * (k / 16 ^ 16 % 16 ^ 4) := Nat.mod_mul
    have e16 : k % (16 ^ 12 * 16 ^ 4)
        = k % 16 ^ 12 + 16 ^ 12 * (k / 16 ^ 12 % 16 ^ 4) := Nat.mod_mul
    rw [show (16:ℕ) ^ 24 * 16 ^ 8 = 16 ^ 32 by ring, Nat.mod_eq_of_lt hk] at e32
    rw [show (16:ℕ) ^ 20 * 16 ^ 4 = 16 ^ 24 by ring] at e24
    rw [show (16:ℕ) ^ 16 * 16 ^ 4 = 16 ^ 20 by ring] at e20
    rw [show (16:ℕ) ^ 12 * 16 ^ 4 = 16 ^ 16 by ring] at e16
    calc k = k % 16 ^ 24 + 16 ^ 24 * (k / 16 ^ 24 % 16 ^ 8) := e32
      _ = (k % 16 ^ 20 + 16 ^ 20 * (k / 16 ^ 20 % 16 ^ 4))
            + 16 ^ 24 * (k / 16 ^ 24 % 16 ^ 8) := by rw [e24]
      _ = ((k % 16 ^ 16 + 16 ^ 16 * (k / 16 ^ 16 % 16 ^ 4))
            + 16 ^ 20 * (k / 16 ^ 20 % 16 ^ 4))
            + 16 ^ 24 * (k / 16 ^ 24 % 16 ^ 8) := by rw [e20]
      _ = (((k % 16 ^ 12 + 16 ^ 12 * (k / 16 ^ 12 % 16 ^ 4))
            + 16 ^ 16 * (k / 16 ^ 16 % 16 ^ 4))
            + 16 ^ 20 * (k / 16 ^ 20 % 16 ^ 4))
            + 16 ^ 24 * (k / 16 ^ 24 % 16 ^ 8) := by rw [e16]
      _ = k % 16 ^ 12 + 16 ^ 12 * (k / 16 ^ 12 % 16 ^ 4)
            + 16 ^ 16 * (k / 16 ^ 16 % 16 ^ 4) + 16 ^ 20 * (k / 16 ^ 20 % 16 ^ 4)
            + 16 ^ 24 * (k / 16 ^ 24 % 16 ^ 8) := by ring
  rw [hrecon n hn, hrecon m hm, g1, g2, g3, g4, g5]

/-- C1: for every buffered entry `c` and new event `e` on different cameras
with the same non-null detection type, `c` is returned by
`find_correlation_candidates e` iff `|e.timestamp - c.timestamp|` is at most
`time_window_seconds`; the boundary is inclusive: at a gap of exactly the
window the pair are candidates, and at any positive excess `ε` they are not. -/
theorem find_candidates_window_inclusive_boundary
    (svc : CorrelationService) (buf : CorrelationBuffer) (t : ℚ)
    (c e : BufferedEvent) (d : String)
    (hmem : (t, c) ∈ buf) (hcam : c.camera_id ≠ e.camera_id)
    (hct : c.smart_detection_type = some d)
    (het : e.smart_detection_type = some d) :
    (c ∈ find_correlation_candidates svc e buf ↔
      |e.timestamp - c.timestamp| ≤ svc.time_window_seconds)
    ∧ (|e.timestamp - c.timestamp| = svc.time_window_seconds →
        c ∈ find_correlation_candidates svc e buf)
    ∧ ∀ ε : ℚ, 0 < ε →
        |e.timestamp - c.timestamp| = svc.time_window_seconds + ε →
        c ∉ find_correlation_candidates svc e buf := by
  have hiff : c ∈ find_correlation_candidates svc e buf ↔
      |e.timestamp - c.timestamp| ≤ svc.time_window_seconds := by
    rw [mem_find_iff]
    constructor
    · rintro ⟨-, -, -, hw⟩
      exact hw
    · intro hw
      exact ⟨⟨t, hmem⟩, hcam, ⟨d, hct, het⟩, hw⟩
  refine ⟨hiff, fun hb => hiff.mpr (le_of_eq hb), ?_⟩
  intro ε hε hb hc
  have := hiff.mp hc
  rw [hb] at this
  linarith

theorem find_candidates_window_inclusive_boundary_witness :
    (⟨"ev1", "cam1", 0, some "person", none, none⟩ : BufferedEvent) ∈
      find_correlation_candidates {}
        ⟨"ev2", "cam2", 10, some "person", none, none⟩
        [(0, ⟨"ev1", "cam1", 0, some "person", none, none⟩)] := by
  have h := find_candidates_window_inclusive_boundary {}
    [((0:ℚ), (⟨"ev1", "cam1", 0, some "person", none, none⟩ : BufferedEvent))] 0
    ⟨"ev1", "cam1", 0, some "person", none, none⟩
    ⟨"ev2", "cam2", 10, some "person", none, none⟩ "person"
    (by simp) (by decide) rfl rfl
  exact h.2.1 (by norm_num)

/-- C2: two events with the same `camera_id` are never returned as correlation
candidates for each other by `find_correlation_candidates`, regardless of
timestamps and detection types. -/
theorem find_candidates_same_camera_excluded
    (svc : CorrelationService) (buf : CorrelationBuffer) (e c : BufferedEvent)
    (hcam : c.camera_id = e.camera_id) :
    c ∉ find_correlation_candidates svc e buf := by
  intro hc
  exact ((mem_find_iff svc e buf c).1 hc).2.1 hcam

theorem find_candidates_same_camera_excluded_witness :
    (⟨"ev1", "cam1", 0, some "person", none, none⟩ : BufferedEvent) ∉
      find_correlation_candidates {}
        ⟨"ev2", "cam1", 2, some "person", none, none⟩
        [(0, ⟨"ev1", "cam1", 0, some "person", none, none⟩)] :=
  find_candidates_same_camera_excluded {} _ _ _ rfl

/-- C3: `find_correlation_candidates` admits a buffered entry only when both
the entry's and the new event's `smart_detection_type` are non-null and exactly
equal; in particular an event with a null detection type is never a candidate
for anything, and two events with different labels never correlate. -/
theorem find_candidates_requires_equal_nonnull_type
    (svc : CorrelationService) (buf : CorrelationBuffer) (e c : BufferedEvent)
    (hc : c ∈ find_correlation_candidates svc e buf) :
    c.smart_detection_type = e.smart_detection_type ∧
      c.smart_detection_type ≠ none ∧ e.smart_detection_type ≠ none := by
  obtain ⟨-, -, ⟨d, hcd, hed⟩, -⟩ := (mem_find_iff svc e buf c).1 hc
  rw [hcd, hed]
  simp

theorem find_candidates_requires_equal_nonnull_type_witness :
    (⟨"ev1", "cam1", 0, some "person", none, none⟩ : BufferedEvent).smart_detection_type
        = (⟨"ev2", "cam2", 3, some "person", none, none⟩ : BufferedEvent).smart_detection_type
      ∧ (⟨"ev1", "cam1", 0, some "person", none, none⟩ : BufferedEvent).smart_detection_type ≠ none
      ∧ (⟨"ev2", "cam2", 3, some "person", none, none⟩ : BufferedEvent).smart_detection_type ≠ none :=
  find_candidates_requires_equal_nonnull_type {}
    [((0:ℚ), ⟨"ev1", "cam1", 0, some "person", none, none⟩)]
    ⟨"ev2", "cam2", 3, some "person", none, none⟩
    ⟨"ev1", "cam1", 0, some "person", none, none⟩
    ((mem_find_iff _ _ _ _).2
      ⟨⟨0, by simp⟩, by decide, ⟨"person", rfl, rfl⟩, by norm_num⟩)

/-- C4: `determine_correlation_group` reuses the first non-null
`correlation_group_id` encountered in candidate order when one exists, and
otherwise mints a new group id from the fresh UUID source; minted ids are
unique (the mint function is injective on 128-bit values). -/
theorem determine_group_reuses_first_or_mints (fresh : Nat) (e : BufferedEvent) :
    (∀ (pre post : List BufferedEvent) (c : BufferedEvent) (g : String),
      (∀ x ∈ pre, x.correlation_group_id = none) →
      c.correlation_group_id = some g →
      (determine_correlation_group fresh e (pre ++ c :: post)).1 = g)
    ∧ (∀ cands : List BufferedEvent,
        (∀ x ∈ cands, x.correlation_group_id = none) →
        (determine_correlation_group fresh e cands).1 = mintUUID fresh)
    ∧ ∀ n2 m2 : Nat, n2 < 16 ^ 32 → m2 < 16 ^ 32 →
        mintUUID n2 = mintUUID m2 → n2 = m2 := by
  refine ⟨?_, ?_, fun n2 m2 a b h => mintUUID_inj n2 m2 a b h⟩
  · intro pre post c g hpre hc
    have hfs : (pre ++ c :: post).findSome?
        (fun x => x.correlation_group_id) = some g := by
      induction pre with
      | nil => simp [List.findSome?_cons, hc]
      | cons y ys ih =>
        have hy : y.correlation_group_id = none := hpre y (by simp)
        simp only [List.cons_append, List.findSome?_cons, hy]
        exact ih (fun x hx => hpre x (by simp [hx]))
    simp [determine_correlation_group, hfs]
  · intro cands hall
    have hfs : cands.findSome? (fun x => x.correlation_group_id) = none :=
      List.findSome?_eq_none_iff.2 hall
    simp [determine_correlation_group, hfs]

theorem determine_group_reuses_first_or_mints_witness :
    (determine_correlation_group 0
        ⟨"ev-new", "cam9", 0, some "person", none, none⟩
        [⟨"ev-0", "cam1", 0, some "person", none, none⟩,
         ⟨"ev-1", "cam2", 0, some "person", some "G1", none⟩]).1 = "G1" := by
  have h := (determine_group_reuses_first_or_mints 0
    ⟨"ev-new", "cam9", 0, some "person", none, none⟩).1
    [⟨"ev-0", "cam1", 0, some "person", none, none⟩] []
    ⟨"ev-1", "cam2", 0, some "person", some "G1", none⟩ "G1"
    (by decide) rfl
  exact h

/-- C5 counterexample: when the new event's id coincides with a candidate's id
the returned membership list (which is deduplicated) has length equal to the
number of distinct ids, not `1 +` the number of distinct candidate ids, so the
claim's length formula fails at this input. -/
theorem determine_group_membership_length_cex :
    ([(⟨"dup", "cam2", 0, some "person", none, none⟩ : BufferedEvent)]
        ≠ ([] : List BufferedEvent))
    ∧ (determine_correlation_group 0
          ⟨"dup", "cam1", 0, some "person", none, none⟩
          [⟨"dup", "cam2", 0, some "person", none, none⟩]).2.length
        ≠ 1 + (([(⟨"dup", "cam2", 0, some "person", none, none⟩ : BufferedEvent)]).map
            (fun c => c.id)).dedup.length := by
  constructor
  · decide
  · decide

/-- C5 (amended): for every call with non-empty candidates the returned
event-id list is ordered and duplicate-free, contains the new event's id and
every candidate's id, and its length is `1 +` the number of distinct candidate
ids distinct from the event's own id (hence `1 +` the number of distinct
candidate ids whenever the event's id is not among them, as is the case for
candidates produced by `find_correlation_candidates` on an id-unique buffer). -/
theorem determine_group_membership_list (fresh : Nat) (e : BufferedEvent)
    (cands : List BufferedEvent) (hne : cands ≠ []) :
    (determine_correlation_group fresh e cands).2.Nodup
    ∧ e.id ∈ (determine_correlation_group fresh e cands).2
    ∧ (∀ c ∈ cands, c.id ∈ (determine_correlation_group fresh e cands).2)
    ∧ (determine_correlation_group fresh e cands).2.length
        = 1 + ((cands.map (fun c => c.id)).filter (fun s => s ≠ e.id)).dedup.length := by
  have h2 : (determine_correlation_group fresh e cands).2
      = dedupKeepFirst (e.id :: cands.map (fun c => c.id)) := rfl
  rw [h2]
  refine ⟨nodup_dedupKeepFirst _, ?_, ?_, ?_⟩
  · rw [mem_dedupKeepFirst]
    simp
  · intro c hc
    rw [mem_dedupKeepFirst]
    simp only [List.mem_cons, List.mem_map]
    exact Or.inr ⟨c, hc, rfl⟩
  · rw [show dedupKeepFirst (e.id :: cands.map (fun c => c.id))
      = e.id :: (dedupKeepFirst (cands.map (fun c => c.id))).filter
          (fun y => y ≠ e.id) from rfl]
    rw [List.length_cons,
      (filter_dedupKeepFirst_perm e.id (cands.map (fun c => c.id))).length_eq]
    omega

theorem determine_group_membership_list_witness :
    (determine_correlation_group 0
        ⟨"e-1", "cam1", 0, some "person", none, none⟩
        [⟨"e-2", "cam2", 0, some "person", none, none⟩,
         ⟨"e-3", "cam3", 0, some "person", none, none⟩]).2.length
      = 1 + ((([(⟨"e-2", "cam2", 0, some "person", none, none⟩ : BufferedEvent),
               ⟨"e-3", "cam3", 0, some "person", none, none⟩]).map
          (fun c => c.id)).filter (fun s => s ≠ "e-1")).dedup.length :=
  (determine_group_membership_list 0
    ⟨"e-1", "cam1", 0, some "person", none, none⟩
    [⟨"e-2", "cam2", 0, some "person", none, none⟩,
     ⟨"e-3", "cam3", 0, some "person", none, none⟩] (by decide)).2.2.2

/-- C10: when `determine_correlation_group` mints a new group id (no candidate
carries a non-null `correlation_group_id`), the returned id is a 36-character
string in the canonical hyphenated textual form of a UUID: five hyphen-joined
groups of 8, 4, 4, 4 and 12 lowercase hexadecimal characters. -/
theorem minted_group_id_uuid_format (fresh : Nat) (e : BufferedEvent)
    (cands : List BufferedEvent)
    (hall : ∀ x ∈ cands, x.correlation_group_id = none) :
    (determine_correlation_group fresh e cands).1.length = 36
    ∧ ∃ g1 g2 g3 g4 g5 : List Char,
        (determine_correlation_group fresh e cands).1.data
          = g1 ++ '-' :: (g2 ++ '-' :: (g3 ++ '-' :: (g4 ++ '-' :: g5)))
        ∧ g1.length = 8 ∧ g2.length = 4 ∧ g3.length = 4 ∧ g4.length = 4
        ∧ g5.length = 12
        ∧ ∀ ch ∈ g1 ++ (g2 ++ (g3 ++ (g4 ++ g5))), isHexChar ch = true := by
  have hfs : cands.findSome? (fun x => x.correlation_group_id) = none :=
    List.findSome?_eq_none_iff.2 hall
  have hgid : (determine_correlation_group fresh e cands).1 = mintUUID fresh := by
    simp [determine_correlation_group, hfs]
  rw [hgid]
  constructor
  · simp [mintUUID, String.length, List.length_append, hexDigits_length]
  · refine ⟨_, _, _, _, _, rfl, hexDigits_length 8 _, hexDigits_length 4 _,
      hexDigits_length 4 _, hexDigits_length 4 _, hexDigits_length 12 _, ?_⟩
    intro ch hch
    rcases List.mem_append.1 hch with h | hch
    · exact mem_hexDigits_isHex 8 _ _ h
    rcases List.mem_append.1 hch with h | hch
    · exact mem_hexDigits_isHex 4 _ _ h
    rcases List.mem_append.1 hch with h | hch
    · exact mem_hexDigits_isHex 4 _ _ h
    rcases List.mem_append.1 hch with h | hch
    · exact mem_hexDigits_isHex 4 _ _ h
    · exact mem_hexDigits_isHex 12 _ _ hch

theorem minted_group_id_uuid_format_witness :
    (determine_correlation_group 0
        ⟨"solo", "cam1", 0, some "person", none, none⟩ []).1.length = 36 :=
  (minted_group_id_uuid_format 0
    ⟨"solo", "cam1", 0, some "person", none, none⟩ [] (by decide)).1

theorem process_event_corrupt (svc : CorrelationService)
    (db : String → List String → Except String Nat) (fresh : Nat) (now : ℚ)
    (e : EventRecord) :
    process_event svc db fresh now e none = (none, none) := rfl

theorem process_event_no_candidates (svc : CorrelationService)
    (db : String → List String → Except String Nat) (fresh : Nat) (now : ℚ)
    (e : EventRecord) (buf : CorrelationBuffer)
    (h : find_correlation_candidates svc (toBufferedEvent e)
      (add_to_buffer svc now e buf) = []) :
    process_event svc db fresh now e (some buf)
      = (some (add_to_buffer svc now e buf), none) := by
  simp [process_event, h]

theorem process_event_db_error (svc : CorrelationService)
    (db : String → List String → Except String Nat) (fresh : Nat) (now : ℚ)
    (e : EventRecord) (buf : CorrelationBuffer) (msg : String)
    (hdb : db (determine_correlation_group fresh (toBufferedEvent e)
          (find_correlation_candidates svc (toBufferedEvent e)
            (add_to_buffer svc now e buf))).1
        (determine_correlation_group fresh (toBufferedEvent e)
          (find_correlation_candidates svc (toBufferedEvent e)
            (add_to_buffer svc now e buf))).2 = Except.error msg) :
    process_event svc db fresh now e (some buf)
      = (some (add_to_buffer svc now e buf), none) := by
  by_cases hc : find_correlation_candidates svc (toBufferedEvent e)
      (add_to_buffer svc now e buf) = []
  · exact process_event_no_candidates svc db fresh now e buf hc
  · simp only [process_event]
    rw [if_neg (by simpa [List.isEmpty_iff] using hc), hdb]

theorem process_event_db_ok (svc : CorrelationService)
    (db : String → List String → Except String Nat) (fresh : Nat) (now : ℚ)
    (e : EventRecord) (buf : CorrelationBuffer) (k : Nat)
    (hne : find_correlation_candidates svc (toBufferedEvent e)
      (add_to_buffer svc now e buf) ≠ [])
    (hdb : db (determine_correlation_group fresh (toBufferedEvent e)
          (find_correlation_candidates svc (toBufferedEvent e)
            (add_to_buffer svc now e buf))).1
        (determine_correlation_group fresh (toBufferedEvent e)
          (find_correlation_candidates svc (toBufferedEvent e)
            (add_to_buffer svc now e buf))).2 = Except.ok k) :
    process_event svc db fresh now e (some buf)
      = (some (annotateBuffer
            (determine_correlation_group fresh (toBufferedEvent e)
              (find_correlation_candidates svc (toBufferedEvent e)
                (add_to_buffer svc now e buf))).2
            (determine_correlation_group fresh (toBufferedEvent e)
              (find_correlation_candidates svc (toBufferedEvent e)
                (add_to_buffer svc now e buf))).1
            (add_to_buffer svc now e buf)),
         some (determine_correlation_group fresh (toBufferedEvent e)
            (find_correlation_candidates svc (toBufferedEvent e)
              (add_to_buffer svc now e buf))).1) := by
  simp only [process_event]
  rw [if_neg (by simpa [List.isEmpty_iff] using hne), hdb]

/-- C6: `process_event` returns `none` whenever `find_correlation_candidates`
finds no candidates (the freshly added event stays in the buffer), and returns
the resolved group id whenever candidates are found and the persistence write
succeeds. -/
theorem process_event_group_or_none (svc : CorrelationService)
    (db : String → List String → Except String Nat) (fresh : Nat) (now : ℚ)
    (e : EventRecord) (buf : CorrelationBuffer) :
    (find_correlation_candidates svc (toBufferedEvent e)
        (add_to_buffer svc now e buf) = [] →
      process_event svc db fresh now e (some buf)
        = (some (add_to_buffer svc now e buf), none))
    ∧ ∀ k, find_correlation_candidates svc (toBufferedEvent e)
          (add_to_buffer svc now e buf) ≠ [] →
        db (determine_correlation_group fresh (toBufferedEvent e)
              (find_correlation_candidates svc (toBufferedEvent e)
                (add_to_buffer svc now e buf))).1
           (determine_correlation_group fresh (toBufferedEvent e)
              (find_correlation_candidates svc (toBufferedEvent e)
                (add_to_buffer svc now e buf))).2 = Except.ok k →
        (process_event svc db fresh now e (some buf)).2
          = some (determine_correlation_group fresh (toBufferedEvent e)
              (find_correlation_candidates svc (toBufferedEvent e)
                (add_to_buffer svc now e buf))).1 := by
  refine ⟨process_event_no_candidates svc db fresh now e buf, ?_⟩
  intro k hne hdb
  rw [process_event_db_ok svc db fresh now e buf k hne hdb]

theorem process_event_group_or_none_witness :
    process_event {} (fun _ _ => Except.ok 0) 0 0
        ⟨"w6", "cam1", 0, some "person", none⟩ (some [])
      = (some [((0:ℚ), toBufferedEvent ⟨"w6", "cam1", 0, some "person", none⟩)],
         none) := by
  have hadd : add_to_buffer {} 0 ⟨"w6", "cam1", 0, some "person", none⟩ []
      = [((0:ℚ), toBufferedEvent ⟨"w6", "cam1", 0, some "person", none⟩)] := by
    norm_num [add_to_buffer]
  have hfind : find_correlation_candidates {}
      (toBufferedEvent ⟨"w6", "cam1", 0, some "person", none⟩)
      (add_to_buffer {} 0 ⟨"w6", "cam1", 0, some "person", none⟩ []) = [] := by
    rw [hadd]
    norm_num [find_correlation_candidates, toBufferedEvent]
  have h := (process_event_group_or_none {} (fun _ _ => Except.ok 0) 0 0
    ⟨"w6", "cam1", 0, some "person", none⟩ []).1 hfind
  rw [h, hadd]

/-- C7: `process_event` never propagates an internal error: a corrupted buffer
state is caught and yields `(none, none)`, a failing persistence write yields
result `none` while the buffer remains the well-formed post-insert buffer, and
in every non-corrupt case the resulting buffer state is a well-formed buffer
(subsequent calls keep working). -/
theorem process_event_fail_open (svc : CorrelationService)
    (db : String → List String → Except String Nat) (fresh : Nat) (now : ℚ)
    (e : EventRecord) (st : Option CorrelationBuffer) :
    (st = none → process_event svc db fresh now e st = (none, none))
    ∧ (∀ buf msg, st = some buf →
        db (determine_correlation_group fresh (toBufferedEvent e)
              (find_correlation_candidates svc (toBufferedEvent e)
                (add_to_buffer svc now e buf))).1
           (determine_correlation_group fresh (toBufferedEvent e)
              (find_correlation_candidates svc (toBufferedEvent e)
                (add_to_buffer svc now e buf))).2 = Except.error msg →
        process_event svc db fresh now e st
          = (some (add_to_buffer svc now e buf), none))
    ∧ ∀ buf, st = some buf →
        ∃ b2, (process_event svc db fresh now e st).1 = some b2 := by
  refine ⟨?_, ?_, ?_⟩
  · rintro rfl
    rfl
  · rintro buf msg rfl hdb
    exact process_event_db_error svc db fresh now e buf msg hdb
  · rintro buf rfl
    by_cases hc : find_correlation_candidates svc (toBufferedEvent e)
        (add_to_buffer svc now e buf) = []
    · exact ⟨_, by rw [process_event_no_candidates svc db fresh now e buf hc]⟩
    · cases hdb : db (determine_correlation_group fresh (toBufferedEvent e)
            (find_correlation_candidates svc (toBufferedEvent e)
              (add_to_buffer svc now e buf))).1
          (determine_correlation_group fresh (toBufferedEvent e)
            (find_correlation_candidates svc (toBufferedEvent e)
              (add_to_buffer svc now e buf))).2 with
      | error msg =>
        exact ⟨_, by rw [process_event_db_error svc db fresh now e buf msg hdb]⟩
      | ok k =>
        exact ⟨_, by rw [process_event_db_ok svc db fresh now e buf k hc hdb]⟩

theorem process_event_fail_open_witness :
    process_event {} (fun _ _ => Except.error "db down") 0 0
        ⟨"w7", "cam1", 0, some "person", none⟩ (some [])
      = (some [((0:ℚ), toBufferedEvent ⟨"w7", "cam1", 0, some "person", none⟩)],
         none) := by
  have h := (process_event_fail_open {} (fun _ _ => Except.error "db down") 0 0
    ⟨"w7", "cam1", 0, some "person", none⟩ (some [])).2.1 [] "db down" rfl rfl
  rw [h]
  norm_num [add_to_buffer]

/-- C8: at the end of every `add_to_buffer` call, every entry remaining in the
buffer has a stored timestamp within `buffer_max_age_seconds` of the wall-clock
instant of that insertion, and the same holds after any sequence of inserts
with respect to the final insertion instant. -/
theorem add_to_buffer_sliding_window (svc : CorrelationService) (now : ℚ)
    (e : EventRecord) (buf : CorrelationBuffer) :
    (∀ p ∈ add_to_buffer svc now e buf,
      now - p.1 ≤ svc.buffer_max_age_seconds)
    ∧ ∀ (steps : List (ℚ × EventRecord)) (buf0 : CorrelationBuffer),
        ∀ p ∈ insertMany svc (steps ++ [(now, e)]) buf0,
          now - p.1 ≤ svc.buffer_max_age_seconds := by
  constructor
  · intro p hp
    exact ((mem_add_to_buffer svc now e buf p).1 hp).2
  · intro steps buf0 p hp
    rw [insertMany, List.foldl_append] at hp
    simp only [List.foldl_cons, List.foldl_nil] at hp
    exact ((mem_add_to_buffer svc now e _ p).1 hp).2

theorem add_to_buffer_sliding_window_witness :
    (((70:ℚ), toBufferedEvent ⟨"w8", "cam1", 70, some "person", none⟩)
        ∈ add_to_buffer {} 70 ⟨"w8", "cam1", 70, some "person", none⟩
            [((0:ℚ), ⟨"old", "cam2", 0, some "person", none, none⟩)])
    ∧ (70:ℚ) - 70 ≤ ({} : CorrelationService).buffer_max_age_seconds := by
  have hmem : ((70:ℚ), toBufferedEvent ⟨"w8", "cam1", 70, some "person", none⟩)
      ∈ add_to_buffer {} 70 ⟨"w8", "cam1", 70, some "person", none⟩
          [((0:ℚ), ⟨"old", "cam2", 0, some "person", none, none⟩)] :=
    (mem_add_to_buffer _ _ _ _ _).2 ⟨Or.inr rfl, by norm_num⟩
  exact ⟨hmem, (add_to_buffer_sliding_window {} 70
    ⟨"w8", "cam1", 70, some "person", none⟩
    [((0:ℚ), ⟨"old", "cam2", 0, some "person", none, none⟩)]).1 _ hmem⟩

/-- C9 counterexample: an event already assigned group id `"G2"` has its group
id changed to `"G1"` by a later `process_event` call whose candidate set
bridges two pre-existing groups, refuting the claim that an assigned non-null
group id is never changed by this subsystem. -/
theorem group_id_reassigned_on_bridging_cex :
    (((1:ℚ), (⟨"b", "cam2", 1, some "person", some "G2", none⟩ : BufferedEvent))
        ∈ ([((0:ℚ), ⟨"a", "cam1", 0, some "person", some "G1", none⟩),
            ((1:ℚ), ⟨"b", "cam2", 1, some "person", some "G2", none⟩)] :
            CorrelationBuffer))
    ∧ ∃ p ∈ ((process_event {} (fun _ _ => Except.ok 3) 0 2
          ⟨"c", "cam3", 2, some "person", none⟩
          (some [((0:ℚ), ⟨"a", "cam1", 0, some "person", some "G1", none⟩),
                 ((1:ℚ), ⟨"b", "cam2", 1, some "person", some "G2", none⟩)])).1.getD
          []),
        p.2.id = "b" ∧ p.2.correlation_group_id = some "G1"
          ∧ some "G1" ≠ some "G2" := by
  have hadd : add_to_buffer {} 2 ⟨"c", "cam3", 2, some "person", none⟩
      [((0:ℚ), ⟨"a", "cam1", 0, some "person", some "G1", none⟩),
       ((1:ℚ), ⟨"b", "cam2", 1, some "person", some "G2", none⟩)]
      = [((0:ℚ), ⟨"a", "cam1", 0, some "person", some "G1", none⟩),
         ((1:ℚ), ⟨"b", "cam2", 1, some "person", some "G2", none⟩),
         ((2:ℚ), toBufferedEvent ⟨"c", "cam3", 2, some "person", none⟩)] := by
    norm_num [add_to_buffer]
  have hfind : find_correlation_candidates {}
      (toBufferedEvent ⟨"c", "cam3", 2, some "person", none⟩)
      [((0:ℚ), ⟨"a", "cam1", 0, some "person", some "G1", none⟩),
       ((1:ℚ), ⟨"b", "cam2", 1, some "person", some "G2", none⟩),
       ((2:ℚ), toBufferedEvent ⟨"c", "cam3", 2, some "person", none⟩)]
      = [⟨"a", "cam1", 0, some "person", some "G1", none⟩,
         ⟨"b", "cam2", 1, some "person", some "G2", none⟩] := by
    norm_num +decide [find_correlation_candidates, toBufferedEvent, typeMatch,
      List.filter]
  have hdet : determine_correlation_group 0
      (toBufferedEvent ⟨"c", "cam3", 2, some "person", none⟩)
      [⟨"a", "cam1", 0, some "person", some "G1", none⟩,
       ⟨"b", "cam2", 1, some "person", some "G2", none⟩]
      = ("G1", ["c", "a", "b"]) := by decide
  have hres := process_event_db_ok {} (fun _ _ => Except.ok 3) 0 2
    ⟨"c", "cam3", 2, some "person", none⟩
    [((0:ℚ), ⟨"a", "cam1", 0, some "person", some "G1", none⟩),
     ((1:ℚ), ⟨"b", "cam2", 1, some "person", some "G2", none⟩)] 3
    (by rw [hadd, hfind]; intro h; cases h) rfl
  rw [hadd, hfind, hdet] at hres
  refine ⟨by simp, ?_⟩
  rw [hres]
  refine ⟨((1:ℚ), setGroup ⟨"b", "cam2", 1, some "person", some "G2", none⟩ "G1"), ?_, rfl, rfl, by simp⟩
  rw [annotateBuffer_eq_map]
  simp only [Option.getD_some]
  refine List.mem_map.2 ⟨((1:ℚ), ⟨"b", "cam2", 1, some "person", some "G2", none⟩), by simp, ?_⟩
  norm_num

/-- C9 (amended): an assigned non-null group id is never cleared and never
changed by a later `process_event` call unless that call's candidate set
bridges two distinct pre-existing non-null group ids; under an id-unique
buffer, a fresh event id, and candidates carrying at most one distinct
non-null group id, every surviving buffer entry for an event with group id `G`
still carries exactly `G` afterwards. -/
theorem group_id_stable_without_bridging (svc : CorrelationService)
    (db : String → List String → Except String Nat) (fresh : Nat) (now : ℚ)
    (e : EventRecord) (buf : CorrelationBuffer)
    (hnodup : (buf.map (fun p => p.2.id)).Nodup)
    (hfresh : e.id ∉ buf.map (fun p => p.2.id))
    (tG : ℚ) (x : BufferedEvent) (G : String)
    (hx : (tG, x) ∈ buf) (hG : x.correlation_group_id = some G)
    (hnb : ∀ c1 ∈ find_correlation_candidates svc (toBufferedEvent e)
            (add_to_buffer svc now e buf),
           ∀ c2 ∈ find_correlation_candidates svc (toBufferedEvent e)
            (add_to_buffer svc now e buf),
           ∀ g1 g2, c1.correlation_group_id = some g1 →
             c2.correlation_group_id = some g2 → g1 = g2) :
    ∀ buf2, (process_event svc db fresh now e (some buf)).1 = some buf2 →
      ∀ p ∈ buf2, p.2.id = x.id → p.2.correlation_group_id = some G := by
  have hxid : x.id ∈ buf.map (fun p => p.2.id) :=
    List.mem_map.2 ⟨(tG, x), hx, rfl⟩
  have hneid : x.id ≠ e.id := fun h => hfresh (h ▸ hxid)
  have hbufid : ∀ q ∈ buf, (q : ℚ × BufferedEvent).2.id = x.id → q.2 = x := by
    intro q hq hid
    have hqx : q = (tG, x) := List.inj_on_of_nodup_map hnodup hq hx hid
    rw [hqx]
  have hbuf1 : ∀ q ∈ add_to_buffer svc now e buf,
      (q : ℚ × BufferedEvent).2.id = x.id → q.2 = x := by
    intro q hq hid
    rcases ((mem_add_to_buffer svc now e buf q).1 hq).1 with hq2 | hq2
    · exact hbufid q hq2 hid
    · exfalso
      apply hneid
      rw [← hid, hq2]
      rfl
  have hcand : ∀ c ∈ find_correlation_candidates svc (toBufferedEvent e)
      (add_to_buffer svc now e buf), c.id = x.id → c = x := by
    intro c hc hid
    obtain ⟨t, ht⟩ :=
      ((mem_find_iff svc (toBufferedEvent e) (add_to_buffer svc now e buf) c).1 hc).1
    exact hbuf1 (t, c) ht hid
  intro buf2 hbuf2 p hp hpid
  by_cases hc : find_correlation_candidates svc (toBufferedEvent e)
      (add_to_buffer svc now e buf) = []
  · rw [process_event_no_candidates svc db fresh now e buf hc] at hbuf2
    have hb : add_to_buffer svc now e buf = buf2 := by simpa using hbuf2
    rw [← hb] at hp
    rw [hbuf1 p hp hpid]
    exact hG
  · cases hdb : db (determine_correlation_group fresh (toBufferedEvent e)
          (find_correlation_candidates svc (toBufferedEvent e)
            (add_to_buffer svc now e buf))).1
        (determine_correlation_group fresh (toBufferedEvent e)
          (find_correlation_candidates svc (toBufferedEvent e)
            (add_to_buffer svc now e buf))).2 with
    | error msg =>
      rw [process_event_db_error svc db fresh now e buf msg hdb] at hbuf2
      have hb : add_to_buffer svc now e buf = buf2 := by simpa using hbuf2
      rw [← hb] at hp
      rw [hbuf1 p hp hpid]
      exact hG
    | ok k =>
      rw [process_event_db_ok svc db fresh now e buf k hc hdb] at hbuf2
      have hb : annotateBuffer
          (determine_correlation_group fresh (toBufferedEvent e)
            (find_correlation_candidates svc (toBufferedEvent e)
              (add_to_buffer svc now e buf))).2
          (determine_correlation_group fresh (toBufferedEvent e)
            (find_correlation_candidates svc (toBufferedEvent e)
              (add_to_buffer svc now e buf))).1
          (add_to_buffer svc now e buf) = buf2 := by simpa using hbuf2
      rw [← hb, annotateBuffer_eq_map] at hp
      obtain ⟨q, hq, hpq⟩ := List.mem_map.1 hp
      by_cases hqin : q.2.id ∈ (determine_correlation_group fresh (toBufferedEvent e)
          (find_correlation_candidates svc (toBufferedEvent e)
            (add_to_buffer svc now e buf))).2
      · rw [if_pos hqin] at hpq
        have hqid : q.2.id = x.id := by
          rw [← hpid, ← hpq]
          rfl
        have hq2x : q.2 = x := hbuf1 q hq hqid
        have hxin : x.id ∈ (determine_correlation_group fresh (toBufferedEvent e)
            (find_correlation_candidates svc (toBufferedEvent e)
              (add_to_buffer svc now e buf))).2 := by
          rw [← hqid]
          exact hqin
        have hxcand : x ∈ find_correlation_candidates svc (toBufferedEvent e)
            (add_to_buffer svc now e buf) := by
          have hxin2 : x.id ∈ (toBufferedEvent e).id ::
              (find_correlation_candidates svc (toBufferedEvent e)
                (add_to_buffer svc now e buf)).map (fun c => c.id) :=
            (mem_dedupKeepFirst _ _).1 hxin
          rcases List.mem_cons.1 hxin2 with h | h
          · exact absurd h hneid
          · obtain ⟨c, hcmem, hcid⟩ := List.mem_map.1 h
            rw [← hcand c hcmem hcid]
            exact hcmem
        cases hfs : (find_correlation_candidates svc (toBufferedEvent e)
            (add_to_buffer svc now e buf)).findSome?
            (fun c => c.correlation_group_id) with
        | none =>
          exact absurd hG (by
            rw [List.findSome?_eq_none_iff.1 hfs x hxcand]
            simp)
        | some g0 =>
          obtain ⟨c0, hc0, hgc0⟩ := List.exists_of_findSome?_eq_some hfs
          have hg0 : g0 = G := hnb c0 hc0 x hxcand g0 G hgc0 hG
          have hgid : (determine_correlation_group fresh (toBufferedEvent e)
              (find_correlation_candidates svc (toBufferedEvent e)
                (add_to_buffer svc now e buf))).1 = g0 := by
            simp [determine_correlation_group, hfs]
          rw [← hpq]
          show (setGroup q.2 _).correlation_group_id = some G
          rw [hgid, hg0]
          rfl
      · rw [if_neg hqin] at hpq
        rw [← hpq]
        rw [hbuf1 q hq (by rw [← hpid, ← hpq])]
        exact hG

theorem group_id_stable_without_bridging_witness :
    (setGroup ⟨"w9-old", "cam1", 0, some "person", some "GS", none⟩
        "GS").correlation_group_id = some "GS" := by
  have hadd9 : add_to_buffer {} 0 ⟨"w9-new", "cam2", 0, some "person", none⟩
      [((0:ℚ), ⟨"w9-old", "cam1", 0, some "person", some "GS", none⟩)]
      = [((0:ℚ), ⟨"w9-old", "cam1", 0, some "person", some "GS", none⟩),
         ((0:ℚ), ⟨"w9-new", "cam2", 0, some "person", none, none⟩)] := by
    norm_num [add_to_buffer, toBufferedEvent]
  have hfind9 : find_correlation_candidates {}
      (toBufferedEvent ⟨"w9-new", "cam2", 0, some "person", none⟩)
      (add_to_buffer {} 0 ⟨"w9-new", "cam2", 0, some "person", none⟩
        [((0:ℚ), ⟨"w9-old", "cam1", 0, some "person", some "GS", none⟩)])
      = [⟨"w9-old", "cam1", 0, some "person", some "GS", none⟩] := by
    rw [hadd9]
    norm_num +decide [find_correlation_candidates, toBufferedEvent, typeMatch,
      List.filter]
  have hdet9 : determine_correlation_group 0
      (toBufferedEvent ⟨"w9-new", "cam2", 0, some "person", none⟩)
      [⟨"w9-old", "cam1", 0, some "person", some "GS", none⟩]
      = ("GS", ["w9-new", "w9-old"]) := by decide
  have hres := process_event_db_ok {} (fun _ _ => Except.ok 2) 0 0
    ⟨"w9-new", "cam2", 0, some "person", none⟩
    [((0:ℚ), ⟨"w9-old", "cam1", 0, some "person", some "GS", none⟩)] 2
    (by
      rw [hfind9]
      intro hcontra
      cases hcontra) rfl
  have h := group_id_stable_without_bridging {} (fun _ _ => Except.ok 2) 0 0
    ⟨"w9-new", "cam2", 0, some "person", none⟩
    [((0:ℚ), ⟨"w9-old", "cam1", 0, some "person", some "GS", none⟩)]
    (by decide) (by decide) 0
    ⟨"w9-old", "cam1", 0, some "person", some "GS", none⟩ "GS"
    (by simp) rfl
    (by
      rw [hfind9]
      intro c1 hc1 c2 hc2 g1 g2 hg1 hg2
      rw [List.mem_singleton.1 hc1] at hg1
      rw [List.mem_singleton.1 hc2] at hg2
      cases hg1
      cases hg2
      rfl)
  have h2 := h _ (by rw [hres])
  exact h2 ((0:ℚ),
      setGroup ⟨"w9-old", "cam1", 0, some "person", some "GS", none⟩ "GS")
    (by
      rw [hfind9, hadd9, hdet9]
      decide) rfl
